import Mathlib

/- Verification of the mailrise routing and dispatch engine.

   Python strings are modelled as lists of characters (`Str`).  Pure Python
   functions from the repository are translated into Lean functions; the small
   number of standard-library primitives they call (regular expression
   fragments, `email.utils.parseaddr`, `fnmatch.fnmatchcase`) are modelled
   explicitly, each with a doc comment stating exactly which library behaviour
   is captured. -/

namespace Mailrise

abbrev Str := List Char

/-- Models Python `str.lower`, exact on ASCII text (Lean's `Char.toLower` only
lower-cases the ASCII range; every string these claims quantify over is
ASCII). -/
def pyLower (s : Str) : Str := s.map Char.toLower

/-- The characters Python `str.strip` removes by default. -/
def pyWhitespace (c : Char) : Bool :=
  c == ' ' || c == '\t' || c == '\n' || c == '\r' || c == '\x0b' || c == '\x0c'

/-- Models Python `str.strip()` with no argument. -/
def pyStrip (s : Str) : Str :=
  ((s.dropWhile pyWhitespace).reverse.dropWhile pyWhitespace).reverse

/-- Splits a list at the last occurrence of `c`: returns the part strictly
before and strictly after it, or `none` when `c` does not occur. -/
def splitLastAt (c : Char) : Str → Option (Str × Str)
  | [] => none
  | a :: rest =>
    match splitLastAt c rest with
    | some (pre, post) => some (a :: pre, post)
    | none => if a = c then some ([], rest) else none

/-- The part of `s` after the last occurrence of `c` (all of `s` when `c` does
not occur). -/
def afterLast (c : Char) (s : Str) : Str :=
  match splitLastAt c s with
  | some (_, post) => post
  | none => s

/-- The quoted alternative of the `parseaddrparts` regular expression
`(?:"([^"@]*)"|([^@]*))@([^@]*)$` from `mailrise/util.py`: when the local-part
segment is exactly a double-quoted run containing no inner quote, the quotes
are dropped (the regex alternation tries the quoted branch first); otherwise
the segment is kept verbatim.  The no-inner-`@` requirement of the quoted
branch is automatic because the segment never contains `@`. -/
def unquoteSeg (seg : Str) : Str :=
  if 2 ≤ seg.length ∧ seg.head? = some '\"' ∧ seg.getLast? = some '\"'
      ∧ '\"' ∉ (seg.drop 1).dropLast
  then (seg.drop 1).dropLast
  else seg

/-- Embeds `parseaddrparts` from `mailrise/util.py` (identical to
`_parseaddrparts` in `mailrise/simple_router.py`): the leftmost match of
`(?:"([^"@]*)"|([^@]*))@([^@]*)$` against `s`.  The `@` of the match is the
last `@` of `s` (the domain group excludes `@` and runs to the end); the
leftmost match therefore starts right after the second-to-last `@`, and the
local-part group is everything between those two positions, unquoted when it
has the quoted shape.  No `@` at all means no match, hence `( "", "")`. -/
def parseaddrparts (s : Str) : Str × Str :=
  match splitLastAt '@' s with
  | none => ([], [])
  | some (pre, domain) => (unquoteSeg (afterLast '@' pre), domain)

/-- Models the Python standard library `email.utils.parseaddr`, returning the
addr-spec component (the display-name component is discarded by `parsercpt`).
The model is exact on the two shapes the claims quantify over: a bare
addr-spec containing no angle bracket is returned unchanged, and a name-addr
form `display <addr-spec>` (display free of `<`, addr-spec free of `>`) yields
the bracketed addr-spec. -/
def parseaddrSpec (addr : Str) : Str :=
  if '<' ∈ addr then
    ((addr.dropWhile (fun c => c != '<')).drop 1).takeWhile (fun c => c != '>')
  else addr

/-- The four Apprise notification types used by mailrise. -/
inductive NotifyType
  | info
  | success
  | warning
  | failure
deriving DecidableEq

/-- Embeds `Key` from `mailrise/config.py` (identical to `_Key` in
`mailrise/simple_router.py`). -/
structure Key where
  user : Str
  domain : Str
deriving DecidableEq

/-- The default domain of `Key`, `"mailrise.xyz"`. -/
def defaultDomain : Str := "mailrise.xyz".toList

/-- Embeds `Key.__str__`. -/
def Key.str (k : Key) : Str := k.user ++ '@' :: k.domain

/-- Embeds `Key.as_configured`. -/
def Key.as_configured (k : Key) : Str :=
  if k.domain = defaultDomain then k.user else k.str

/-- Embeds `Recipient` from `mailrise/smtp.py` (identical to `_Recipient` in
`mailrise/simple_router.py`). -/
structure Recipient where
  key : Key
  notify_type : NotifyType
deriving DecidableEq

/-- The lowercase severity tokens, in the order they appear in the regular
expression `(.*)\.(info|success|warning|failure)$`. -/
def sevWords : List Str :=
  [ "info".toList, "success".toList, "warning".toList, "failure".toList ]

/-- One anchoring position of `re.search(r'(.*)\.(info|success|warning|failure)$',
s, re.IGNORECASE)`: when `s` ends (case-insensitively) with a dot followed by
one of the four tokens, returns `(group(1), group(2))`.  `group(2)` keeps the
original case.  Because `.` in the pattern does not match a newline and
`re.search` yields the leftmost match, `group(1)` reaches back only to the
character after the last newline of the stem.  At most one of the four tokens
can match, so scanning them in order is exact. -/
def sevSuffixAt (s : Str) : Option (Str × Str) :=
  match sevWords.find? (fun w => decide (('.' :: w) <:+ pyLower s)) with
  | some w =>
    some (afterLast '\n' (s.take (s.length - (w.length + 1))),
          s.drop (s.length - w.length))
  | none => none

/-- Full model of the severity-suffix search: Python `$` (without
`re.MULTILINE`) also matches just before a newline that ends the string, so a
single trailing newline is tolerated. -/
def sevMatch (s : Str) : Option (Str × Str) :=
  match sevSuffixAt s with
  | some r => some r
  | none =>
    if s.getLast? = some '\n' then sevSuffixAt s.dropLast else none

/-- The severity branch of `parsercpt`: `match.group(2)` is compared to the
lowercase tokens with case-sensitive `==`, and `info` (the initial value of
`ntype`) is kept when no branch matches. -/
def sevTypeExact (g2 : Str) : NotifyType :=
  if g2 = "success".toList then NotifyType.success
  else if g2 = "warning".toList then NotifyType.warning
  else if g2 = "failure".toList then NotifyType.failure
  else NotifyType.info

/-- The body of `parsercpt` from `mailrise/smtp.py` lines 88-105 (identical to
`_parsercpt` in `mailrise/simple_router.py`), applied to the addr-spec
returned by `parseaddr`.  `none` models the raised `RecipientError`
(`ValueError` in the simple-router copy). -/
def parsercptRcpt (rcpt : Str) : Option Recipient :=
  let ud := parseaddrparts rcpt
  if ud.1 = [] ∨ ud.2 = [] then none
  else
    let p := match sevMatch ud.1 with
      | some (g1, g2) => (g1, sevTypeExact g2)
      | none => (ud.1, NotifyType.info)
    some { key := { user := p.1, domain := pyLower ud.2 }, notify_type := p.2 }

/-- Embeds `parsercpt` from `mailrise/smtp.py` lines 78-105. -/
def parsercpt (addr : Str) : Option Recipient :=
  parsercptRcpt (parseaddrSpec addr)

-- Validation against the recipient-parsing unit tests of the repository.
example : parsercpt ( "test@mailrise.xyz".toList) =
    some ⟨⟨"test".toList, "mailrise.xyz".toList⟩, NotifyType.info⟩ := by decide
example : parsercpt ( "test.warning@mailrise.xyz".toList) =
    some ⟨⟨"test".toList, "mailrise.xyz".toList⟩, NotifyType.warning⟩ := by decide
example : parsercpt ( "\"with_quotes\"@mailrise.xyz".toList) =
    some ⟨⟨"with_quotes".toList, "mailrise.xyz".toList⟩, NotifyType.info⟩ := by decide
example : parsercpt ( "\"with_quotes.success\"@mailrise.xyz".toList) =
    some ⟨⟨"with_quotes".toList, "mailrise.xyz".toList⟩, NotifyType.success⟩ := by
  decide
example : parsercpt ( "\"weird_quotes\".success@mailrise.xyz".toList) =
    some ⟨⟨"\"weird_quotes\"".toList, "mailrise.xyz".toList⟩, NotifyType.success⟩ := by
  decide
example : parsercpt ( "John Doe <johndoe.warning@mailrise.xyz>".toList) =
    some ⟨⟨"johndoe".toList, "mailrise.xyz".toList⟩, NotifyType.warning⟩ := by decide
example : parsercpt ( "Invalid Email <bad@>".toList) = none := by decide

/- Supporting lemmas about the address-parsing primitives. -/

theorem splitLastAt_eq_none {c : Char} {l : Str} (h : c ∉ l) :
    splitLastAt c l = none := by
  induction l with
  | nil => rfl
  | cons a rest ih =>
    have hc : c ∉ rest := fun hm => h (List.mem_cons_of_mem _ hm)
    have ha : ¬ a = c := fun he => h (he ▸ List.mem_cons_self a rest)
    simp [splitLastAt, ih hc, ha]

theorem splitLastAt_append {c : Char} {post : Str} (pre : Str) (h : c ∉ post) :
    splitLastAt c (pre ++ c :: post) = some (pre, post) := by
  induction pre with
  | nil => simp [splitLastAt, splitLastAt_eq_none h]
  | cons a pre ih => simp [splitLastAt, ih]

theorem afterLast_eq_self {c : Char} {s : Str} (h : c ∉ s) : afterLast c s = s := by
  simp [afterLast, splitLastAt_eq_none h]

theorem mem_of_head?_eq {α : Type} {a : α} {l : List α} (h : l.head? = some a) :
    a ∈ l := by
  cases l with
  | nil => simp at h
  | cons b t => simp at h; simp [h]

theorem mem_of_getLast?_eq {α : Type} {a : α} {l : List α} (h : l.getLast? = some a) :
    a ∈ l := by
  induction l with
  | nil => simp at h
  | cons b t ih =>
    cases t with
    | nil => simp at h; simp [h]
    | cons x xs =>
      rw [List.getLast?_cons_cons] at h
      exact List.mem_cons_of_mem _ (ih h)

theorem mem_pyLower {c : Char} (hfix : Char.toLower c = c) {l : Str} (h : c ∈ l) :
    c ∈ pyLower l := by
  have := List.mem_map_of_mem Char.toLower h
  rwa [hfix] at this

theorem not_mem_of_pyLower_eq {c : Char} (hfix : Char.toLower c = c) {W w : Str}
    (hW : pyLower W = w) (hcw : c ∉ w) : c ∉ W :=
  fun h => hcw (hW ▸ mem_pyLower hfix h)

theorem pyLower_append (a b : Str) : pyLower (a ++ b) = pyLower a ++ pyLower b :=
  List.map_append _ _ _

theorem length_pyLower (s : Str) : (pyLower s).length = s.length :=
  List.length_map _ _

/-- Two distinct dot-prefixed tokens cannot both be suffixes of the same
string, provided neither is a suffix of the other. -/
theorem suffix_excl {L w w' : Str}
    (h1 : ¬ ('.' :: w') <:+ ('.' :: w)) (h2 : ¬ ('.' :: w) <:+ ('.' :: w')) :
    ¬ ('.' :: w') <:+ (L ++ '.' :: w) := by
  intro hs
  have hw : ('.' :: w) <:+ (L ++ '.' :: w) := List.suffix_append L ('.' :: w)
  rcases le_total (w'.length) (w.length) with hle | hle
  · exact h1 (List.suffix_of_suffix_length_le hs hw
      (by simp only [List.length_cons]; omega))
  · exact h2 (List.suffix_of_suffix_length_le hw hs
      (by simp only [List.length_cons]; omega))

theorem sevFind (user W w : Str) (hw : w ∈ sevWords) (hW : pyLower W = w) :
    sevWords.find? (fun v => decide (('.' :: v) <:+ pyLower (user ++ '.' :: W)))
      = some w := by
  have hL : pyLower (user ++ '.' :: W) = pyLower user ++ '.' :: w := by
    rw [pyLower_append, ← hW]; rfl
  rw [hL]
  simp only [sevWords, List.mem_cons, List.not_mem_nil, or_false] at hw
  rcases hw with rfl | rfl | rfl | rfl
  · simp only [sevWords, List.find?_cons]
    rw [decide_eq_true (List.suffix_append (pyLower user) ('.' :: "info".toList))]
  · simp only [sevWords, List.find?_cons]
    rw [decide_eq_false
        (@suffix_excl (pyLower user) ( "success".toList) ( "info".toList)
          (by decide) (by decide)),
      decide_eq_true (List.suffix_append (pyLower user) ('.' :: "success".toList))]
  · simp only [sevWords, List.find?_cons]
    rw [decide_eq_false
        (@suffix_excl (pyLower user) ( "warning".toList) ( "info".toList)
          (by decide) (by decide)),
      decide_eq_false
        (@suffix_excl (pyLower user) ( "warning".toList) ( "success".toList)
          (by decide) (by decide)),
      decide_eq_true (List.suffix_append (pyLower user) ('.' :: "warning".toList))]
  · simp only [sevWords, List.find?_cons]
    rw [decide_eq_false
        (@suffix_excl (pyLower user) ( "failure".toList) ( "info".toList)
          (by decide) (by decide)),
      decide_eq_false
        (@suffix_excl (pyLower user) ( "failure".toList) ( "success".toList)
          (by decide) (by decide)),
      decide_eq_false
        (@suffix_excl (pyLower user) ( "failure".toList) ( "warning".toList)
          (by decide) (by decide)),
      decide_eq_true (List.suffix_append (pyLower user) ('.' :: "failure".toList))]

theorem sevSuffixAt_suffix (user W w : Str) (hw : w ∈ sevWords)
    (hW : pyLower W = w) (hnl : '\n' ∉ user) :
    sevSuffixAt (user ++ '.' :: W) = some (user, W) := by
  have hlen : W.length = w.length := by rw [← hW]; exact (length_pyLower W).symm
  have harith : (user ++ '.' :: W).length - (w.length + 1) = user.length := by
    simp only [List.length_append, List.length_cons]; omega
  have harith2 : (user ++ '.' :: W).length - w.length = user.length + 1 := by
    simp only [List.length_append, List.length_cons]; omega
  have htake : (user ++ '.' :: W).take user.length = user := List.take_left _ _
  have hdrop : (user ++ '.' :: W).drop (user.length + 1) = W := by
    rw [List.append_cons]
    have : (user ++ ['.']).length = user.length + 1 := by simp
    rw [← this]
    exact List.drop_left _ _
  unfold sevSuffixAt
  rw [sevFind user W w hw hW]
  dsimp only
  rw [harith, harith2, htake, hdrop, afterLast_eq_self hnl]

theorem sevMatch_suffix (user W w : Str) (hw : w ∈ sevWords)
    (hW : pyLower W = w) (hnl : '\n' ∉ user) :
    sevMatch (user ++ '.' :: W) = some (user, W) := by
  unfold sevMatch
  rw [sevSuffixAt_suffix user W w hw hW hnl]

theorem getLast?_isSome_of_ne_nil {α : Type} {l : List α} (h : l ≠ []) :
    ∃ x, l.getLast? = some x := by
  induction l with
  | nil => exact absurd rfl h
  | cons b t ih =>
    cases t with
    | nil => exact ⟨b, rfl⟩
    | cons x xs =>
      obtain ⟨y, hy⟩ := ih (by simp)
      exact ⟨y, by rw [List.getLast?_cons_cons]; exact hy⟩

theorem unquoteSeg_eq_self_of_getLast {seg : Str}
    (h : seg.getLast? ≠ some '\"') : unquoteSeg seg = seg := by
  unfold unquoteSeg
  exact if_neg (fun hc => h hc.2.2.1)

theorem unquoteSeg_eq_self_of_not_mem {seg : Str} (h : '\"' ∉ seg) :
    unquoteSeg seg = seg := by
  unfold unquoteSeg
  exact if_neg (fun hc => h (mem_of_head?_eq hc.2.1))

/-- Decoding an address of the form `user.W@domain`, where the lower-casing of
`W` is one of the four severity tokens:  the severity suffix is stripped from
the local part and the notification type is computed by the case-sensitive
comparisons of `parsercpt` (captured by `sevTypeExact`). -/
theorem parsercpt_suffix_master (user domain W w : Str) (hw : w ∈ sevWords)
    (hW : pyLower W = w)
    (_hu : user ≠ []) (hd : domain ≠ [])
    (hau : '@' ∉ user) (had : '@' ∉ domain)
    (hlu : '<' ∉ user) (hld : '<' ∉ domain)
    (hnu : '\n' ∉ user) :
    parsercpt (user ++ '.' :: W ++ '@' :: domain) =
      some ⟨⟨user, pyLower domain⟩, sevTypeExact W⟩ := by
  have haW : '@' ∉ W :=
    not_mem_of_pyLower_eq (by decide) hW
      ((show ∀ v ∈ sevWords, '@' ∉ v by decide) w hw)
  have hlW : '<' ∉ W :=
    not_mem_of_pyLower_eq (by decide) hW
      ((show ∀ v ∈ sevWords, '<' ∉ v by decide) w hw)
  have hqW : '\"' ∉ W :=
    not_mem_of_pyLower_eq (by decide) hW
      ((show ∀ v ∈ sevWords, '\"' ∉ v by decide) w hw)
  have hWne : W ≠ [] := by
    intro h
    subst h
    exact (show ∀ v ∈ sevWords, v ≠ [] by decide) w hw (by rw [← hW]; rfl)
  have hseg : '@' ∉ user ++ '.' :: W := by
    intro h
    rcases List.mem_append.mp h with h | h
    · exact hau h
    · rcases List.mem_cons.mp h with h | h
      · exact absurd h (by decide)
      · exact haW h
  have hlt : '<' ∉ (user ++ '.' :: W) ++ '@' :: domain := by
    intro h
    rcases List.mem_append.mp h with h | h
    · rcases List.mem_append.mp h with h | h
      · exact hlu h
      · rcases List.mem_cons.mp h with h | h
        · exact absurd h (by decide)
        · exact hlW h
    · rcases List.mem_cons.mp h with h | h
      · exact absurd h (by decide)
      · exact hld h
  have hlast : (user ++ '.' :: W).getLast? ≠ some '\"' := by
    obtain ⟨b, W', rfl⟩ := List.exists_cons_of_ne_nil hWne
    obtain ⟨y, hy⟩ := getLast?_isSome_of_ne_nil (show b :: W' ≠ [] by simp)
    intro hEq
    rw [List.getLast?_append, List.getLast?_cons_cons, hy] at hEq
    simp only [Option.or_some, Option.some.injEq] at hEq
    exact hqW (hEq ▸ mem_of_getLast?_eq hy)
  have hpp : parseaddrparts ((user ++ '.' :: W) ++ '@' :: domain) =
      (user ++ '.' :: W, domain) := by
    unfold parseaddrparts
    rw [splitLastAt_append _ had]
    dsimp only
    rw [afterLast_eq_self hseg, unquoteSeg_eq_self_of_getLast hlast]
  unfold parsercpt parseaddrSpec
  rw [if_neg hlt]
  unfold parsercptRcpt
  rw [hpp]
  dsimp only
  rw [if_neg (by
      intro h
      rcases h with h | h
      · exact List.append_ne_nil_of_right_ne_nil user (by simp) h
      · exact hd h)]
  rw [sevMatch_suffix user W w hw hW hnu]

/-- Decoding an address of the form `user@domain` where the local part
carries no severity suffix: the severity defaults to `info`. -/
theorem parsercpt_nosuffix_master (user domain : Str)
    (hu : user ≠ []) (hd : domain ≠ [])
    (hau : '@' ∉ user) (had : '@' ∉ domain)
    (hlu : '<' ∉ user) (hld : '<' ∉ domain)
    (hq : '\"' ∉ user) (hnn : '\n' ∉ user)
    (hns : ∀ w ∈ sevWords, ¬ ('.' :: w) <:+ pyLower user) :
    parsercpt (user ++ '@' :: domain) =
      some ⟨⟨user, pyLower domain⟩, NotifyType.info⟩ := by
  have hlt : '<' ∉ user ++ '@' :: domain := by
    intro h
    rcases List.mem_append.mp h with h | h
    · exact hlu h
    · rcases List.mem_cons.mp h with h | h
      · exact absurd h (by decide)
      · exact hld h
  have hpp : parseaddrparts (user ++ '@' :: domain) = (user, domain) := by
    unfold parseaddrparts
    rw [splitLastAt_append _ had]
    dsimp only
    rw [afterLast_eq_self hau, unquoteSeg_eq_self_of_not_mem hq]
  have hsA : sevSuffixAt user = none := by
    unfold sevSuffixAt
    rw [List.find?_eq_none.mpr (fun v hv => by
      simp only [decide_eq_true_eq]
      exact hns v hv)]
  have hsM : sevMatch user = none := by
    unfold sevMatch
    rw [hsA]
    dsimp only
    rw [if_neg (fun hc => hnn (mem_of_getLast?_eq hc))]
  unfold parsercpt parseaddrSpec
  rw [if_neg hlt]
  unfold parsercptRcpt
  rw [hpp]
  dsimp only
  rw [if_neg (by
      intro h
      rcases h with h | h
      · exact hu h
      · exact hd h)]
  rw [hsM]

theorem dropWhile_until_char {target : Char} {name rest : Str} (h : target ∉ name) :
    List.dropWhile (fun c => c != target) (name ++ target :: rest) =
      target :: rest := by
  induction name with
  | nil => simp [List.dropWhile]
  | cons a name ih =>
    have ha : a ≠ target := fun he => h (he ▸ List.mem_cons_self a name)
    have hn : target ∉ name := fun hm => h (List.mem_cons_of_mem _ hm)
    have hb : (a != target) = true := bne_iff_ne.mpr ha
    simp [List.dropWhile, hb, ih hn]

theorem takeWhile_until_char {target : Char} {inner rest : Str} (h : target ∉ inner) :
    List.takeWhile (fun c => c != target) (inner ++ target :: rest) = inner := by
  induction inner with
  | nil => simp [List.takeWhile]
  | cons a inner ih =>
    have ha : a ≠ target := fun he => h (he ▸ List.mem_cons_self a inner)
    have hn : target ∉ inner := fun hm => h (List.mem_cons_of_mem _ hm)
    have hb : (a != target) = true := bne_iff_ne.mpr ha
    simp [List.takeWhile, hb, ih hn]

/-- Claim C1: for every recipient address of the form `user.severity@domain`
where `severity` is one of the lowercase tokens info, success, warning or
failure, `parsercpt` returns the routing key made of `user` and the
lower-cased `domain` together with the severity named by the suffix (which is
what `sevTypeExact` computes on the four lowercase tokens); for every address
without such a suffix the severity is info.  The side conditions pin the
address down to a plain addr-spec: non-empty components free of `@`, of angle
brackets (so that `parseaddr` returns the input unchanged), of quotes around
the user, and of newlines. -/
theorem parsercpt_severity_suffix_claim :
    (∀ user domain w : Str, w ∈ sevWords →
      user ≠ [] → domain ≠ [] →
      '@' ∉ user → '@' ∉ domain → '<' ∉ user → '<' ∉ domain → '\n' ∉ user →
      parsercpt (user ++ '.' :: w ++ '@' :: domain) =
        some ⟨⟨user, pyLower domain⟩, sevTypeExact w⟩)
    ∧ (∀ user domain : Str,
      user ≠ [] → domain ≠ [] →
      '@' ∉ user → '@' ∉ domain → '<' ∉ user → '<' ∉ domain →
      '\"' ∉ user → '\n' ∉ user →
      (∀ w ∈ sevWords, ¬ ('.' :: w) <:+ pyLower user) →
      parsercpt (user ++ '@' :: domain) =
        some ⟨⟨user, pyLower domain⟩, NotifyType.info⟩) := by
  constructor
  · intro user domain w hw hu hd hau had hlu hld hnu
    exact parsercpt_suffix_master user domain w w hw
      ((show ∀ v ∈ sevWords, pyLower v = v by decide) w hw)
      hu hd hau had hlu hld hnu
  · intro user domain hu hd hau had hlu hld hq hnn hns
    exact parsercpt_nosuffix_master user domain hu hd hau had hlu hld hq hnn hns

theorem parsercpt_severity_suffix_claim_witness :
    parsercpt ( "alert.failure@mailrise.xyz".toList) =
      some ⟨⟨ "alert".toList, pyLower ( "mailrise.xyz".toList)⟩,
        sevTypeExact ( "failure".toList)⟩ :=
  parsercpt_severity_suffix_claim.1 ( "alert".toList) ( "mailrise.xyz".toList)
    ( "failure".toList) (by decide) (by decide) (by decide) (by decide)
    (by decide) (by decide) (by decide) (by decide)

/-- Claim C2 counterexample: the address `.info@example.com` decodes
successfully to a routing key with an EMPTY user, because `parsercpt` checks
the local part for emptiness before stripping the severity suffix.  The claim
says such an address must fail with `InvalidAddress`, and that every
successful decode has a non-empty user. -/
theorem parsercpt_empty_user_counterexample :
    parsercpt ( ".info@example.com".toList) =
      some ⟨⟨[], "example.com".toList⟩, NotifyType.info⟩ := by decide

/-- Claim C2 amended: decoding fails exactly when the (unquoted) local part or
the domain part extracted by `parseaddrparts` is empty — the emptiness test
happens BEFORE severity-suffix removal, so a local part that is exactly a
severity suffix decodes to an empty user.  An input without `@` always fails,
and after every successful decode the domain is the lower-casing of the
extracted domain part and is non-empty. -/
theorem parsercpt_failure_characterization (addr : Str) :
    (parsercpt addr = none ↔
      ((parseaddrparts (parseaddrSpec addr)).1 = [] ∨
       (parseaddrparts (parseaddrSpec addr)).2 = []))
    ∧ ('@' ∉ parseaddrSpec addr → parsercpt addr = none)
    ∧ (∀ r : Recipient, parsercpt addr = some r →
        r.key.domain = pyLower (parseaddrparts (parseaddrSpec addr)).2 ∧
        r.key.domain ≠ []) := by
  refine ⟨?_, ?_, ?_⟩
  · by_cases h : (parseaddrparts (parseaddrSpec addr)).1 = [] ∨
        (parseaddrparts (parseaddrSpec addr)).2 = []
    · simp [parsercpt, parsercptRcpt, h]
    · simp [parsercpt, parsercptRcpt, h]
  · intro h
    have hpp : parseaddrparts (parseaddrSpec addr) = ([], []) := by
      unfold parseaddrparts
      rw [splitLastAt_eq_none h]
    simp [parsercpt, parsercptRcpt, hpp]
  · intro r hr
    by_cases h : (parseaddrparts (parseaddrSpec addr)).1 = [] ∨
        (parseaddrparts (parseaddrSpec addr)).2 = []
    · simp [parsercpt, parsercptRcpt, h] at hr
    · have hd2 : (parseaddrparts (parseaddrSpec addr)).2 ≠ [] :=
        fun hc => h (Or.inr hc)
      simp only [parsercpt, parsercptRcpt, if_neg h] at hr
      have hx := Option.some.inj hr
      subst hx
      refine ⟨rfl, fun hc => hd2 ?_⟩
      have hlen := congrArg List.length hc
      rw [length_pyLower] at hlen
      exact List.eq_nil_of_length_eq_zero hlen

theorem parsercpt_failure_characterization_witness :
    parsercpt ( "nodomainhere".toList) = none :=
  (parsercpt_failure_characterization ( "nodomainhere".toList)).2.1 (by decide)

/-- Claim C8 counterexample: the severity suffix IS recognized and stripped
case-insensitively, but the severity value is compared case-sensitively
against the lowercase tokens, so `user.SUCCESS@example.com` decodes with
severity info, not success as the claim requires. -/
theorem parsercpt_uppercase_counterexample :
    parsercpt ( "user.SUCCESS@example.com".toList) =
      some ⟨⟨ "user".toList, "example.com".toList⟩, NotifyType.info⟩ ∧
    NotifyType.info ≠ NotifyType.success := by decide

/-- Claim C8 amended: for every spelling `W` whose lower-casing is one of the
four severity tokens, decoding `user.W@domain` strips the suffix from the
local part; the severity, however, is the one named by the suffix only when
`W` is spelled exactly in lowercase (`sevTypeExact` compares `match.group(2)`
case-sensitively and otherwise leaves the default info). -/
theorem parsercpt_suffix_case_insensitive_strip (user domain W w : Str)
    (hw : w ∈ sevWords) (hW : pyLower W = w)
    (hu : user ≠ []) (hd : domain ≠ [])
    (hau : '@' ∉ user) (had : '@' ∉ domain)
    (hlu : '<' ∉ user) (hld : '<' ∉ domain) (hnu : '\n' ∉ user) :
    parsercpt (user ++ '.' :: W ++ '@' :: domain) =
      some ⟨⟨user, pyLower domain⟩, sevTypeExact W⟩ :=
  parsercpt_suffix_master user domain W w hw hW hu hd hau had hlu hld hnu

theorem parsercpt_suffix_case_insensitive_strip_witness :
    parsercpt ( "user.Warning@mailrise.xyz".toList) =
      some ⟨⟨ "user".toList, pyLower ( "mailrise.xyz".toList)⟩,
        sevTypeExact ( "Warning".toList)⟩ :=
  parsercpt_suffix_case_insensitive_strip ( "user".toList)
    ( "mailrise.xyz".toList) ( "Warning".toList) ( "warning".toList)
    (by decide) (by decide) (by decide) (by decide) (by decide) (by decide)
    (by decide) (by decide) (by decide)

/-- Claim C10: a full RFC-2822 name-addr form is accepted: the display name is
discarded and the angle-bracketed addr-spec is decoded, with exactly the same
result as decoding the addr-spec directly. -/
theorem parsercpt_nameaddr_claim (name inner : Str)
    (h1 : '<' ∉ name) (h2 : '<' ∉ inner) (h3 : '>' ∉ inner) :
    parsercpt (name ++ '<' :: (inner ++ [ '>' ])) = parsercpt inner := by
  have haddr : '<' ∈ name ++ '<' :: (inner ++ [ '>' ]) := by
    simp [List.mem_append]
  have hspec : parseaddrSpec (name ++ '<' :: (inner ++ [ '>' ])) = inner := by
    unfold parseaddrSpec
    rw [if_pos haddr, dropWhile_until_char h1]
    simp only [List.drop_succ_cons, List.drop_zero]
    have : inner ++ [ '>' ] = inner ++ '>' :: [] := rfl
    rw [this, takeWhile_until_char h3]
  have hspec2 : parseaddrSpec inner = inner := by
    unfold parseaddrSpec
    rw [if_neg h2]
  unfold parsercpt
  rw [hspec, hspec2]

theorem parsercpt_nameaddr_claim_witness :
    parsercpt ( "John Doe ".toList ++ '<' ::
        ( "johndoe.warning@mailrise.xyz".toList ++ [ '>' ])) =
      parsercpt ( "johndoe.warning@mailrise.xyz".toList) :=
  parsercpt_nameaddr_claim ( "John Doe ".toList)
    ( "johndoe.warning@mailrise.xyz".toList) (by decide) (by decide) (by decide)

/- The sender registry: SimpleRouter.get_sender with fnmatch-style glob
matching. -/

/-- The three Apprise body formats accepted by the configuration. -/
inductive NotifyFormat
  | text
  | html
  | markdown
deriving DecidableEq

/-- Embeds `_SimpleSender` from `mailrise/simple_router.py`.  The two
`string.Template` objects are carried as their template strings and the
compiled `body_pattern` regular expression as its pattern string; both are
interpreted by external standard-library code that the router embedding
receives as function parameters. -/
structure SimpleSender where
  config_yaml : Str
  title_template : Str
  body_template : Str
  body_format : Option NotifyFormat
  body_pattern : Option Str
deriving DecidableEq

/-- One `*` of a glob pattern: try the continuation on every suffix of the
name, longest first (the order is irrelevant to the boolean result). -/
def starLoop (f : Str → Bool) : Str → Bool
  | [] => f []
  | a :: n => f (a :: n) || starLoop f n

/-- Models `fnmatch.fnmatchcase(name, pat)` restricted to patterns built from
literal characters and the wildcards `*` and `?` (bracketed character classes
are not modelled; the glob patterns of the routing configuration grammar use
only these forms).  `fnmatch.translate` produces an anchored `(?s:...)\Z`
regular expression, so `*` matches any run of characters including newlines,
`?` any single character, and the whole name must be consumed. -/
def fnmatchcase : Str → Str → Bool
  | n, [] => n.isEmpty
  | n, c :: p =>
    if c = '*' then starLoop (fun m => fnmatchcase m p) n
    else
      match n with
      | [] => false
      | a :: nt => (decide (c = '?') || decide (c = a)) && fnmatchcase nt p

/-- The per-entry predicate of `SimpleRouter.get_sender`: the user pattern
must glob-match the key's user and the domain pattern the key's domain. -/
def keyMatches (key pattern_key : Key) : Bool :=
  fnmatchcase key.user pattern_key.user && fnmatchcase key.domain pattern_key.domain

/-- Embeds `SimpleRouter.get_sender` (`mailrise/simple_router.py` lines
156-161): `next` over a generator filtered by `fnmatchcase` on both
components, with `None` as the default. -/
def get_sender (senders : List (Key × SimpleSender)) (key : Key) :
    Option SimpleSender :=
  (senders.find? (fun e => keyMatches key e.1)).map Prod.snd

-- Validation against the registry examples of the specification.
example :
    fnmatchcase ( "thequickbrownfox".toList) ( "the*".toList) = true := by decide
example : fnmatchcase ( "user".toList) ( "the*".toList) = false := by decide
example : fnmatchcase ( "mailrise.xyz".toList) ( "mailrise.xyz".toList) = true := by
  decide
example : fnmatchcase ( "example.com".toList) ( "mailrise.xyz".toList) = false := by
  decide

/-- Claim C3: registry lookup returns the configuration of the first entry in
registration order whose user pattern glob-matches the key's user and whose
domain pattern glob-matches the key's domain (both case-sensitively, as
`keyMatches` applies `fnmatchcase` to each component independently); when no
entry matches both components the lookup returns `none` rather than an
error. -/
theorem get_sender_first_match_claim (senders : List (Key × SimpleSender))
    (key : Key) :
    (∀ s, get_sender senders key = some s ↔
      ∃ pre pk post, senders = pre ++ (pk, s) :: post ∧
        keyMatches key pk = true ∧
        ∀ e ∈ pre, keyMatches key e.1 = false)
    ∧ (get_sender senders key = none ↔
        ∀ e ∈ senders, keyMatches key e.1 = false) := by
  constructor
  · intro s
    unfold get_sender
    rw [Option.map_eq_some']
    constructor
    · rintro ⟨e, he, rfl⟩
      rw [List.find?_eq_some] at he
      obtain ⟨hpe, pre, post, rfl, hall⟩ := he
      exact ⟨pre, e.1, post, by rw [Prod.mk.eta], hpe,
        fun x hx => by simpa using hall x hx⟩
    · rintro ⟨pre, pk, post, rfl, hpk, hall⟩
      refine ⟨(pk, s), ?_, rfl⟩
      rw [List.find?_eq_some]
      exact ⟨hpk, pre, post, rfl, fun x hx => by simp [hall x hx]⟩
  · unfold get_sender
    rw [Option.map_eq_none', List.find?_eq_none]
    constructor
    · intro h e he
      have := h e he
      simpa using this
    · intro h e he
      simp [h e he]

theorem get_sender_first_match_claim_witness :
    get_sender
      [ (⟨ "the*".toList, "*".toList⟩,
          ⟨ "first".toList, [], [], none, none⟩),
        (⟨ "*".toList, "*".toList⟩,
          ⟨ "second".toList, [], [], none, none⟩) ]
      ⟨ "thequickbrownfox".toList, "example.com".toList⟩ =
      some ⟨ "first".toList, [], [], none, none⟩ :=
  ((get_sender_first_match_claim _ _).1 _).mpr
    ⟨[], ⟨ "the*".toList, "*".toList⟩,
      [ (⟨ "*".toList, "*".toList⟩, ⟨ "second".toList, [], [], none, none⟩) ],
      rfl, by decide, by simp⟩

/- The dispatch coordinator: EmailNotification.submit, asyncio.gather and the
outcome section of AppriseHandler.handle_DATA. -/

/-- What the notifier capability does for one submission: returns a truthy
result, returns a falsy result, or raises an exception. -/
inductive NotifyOutcome
  | success
  | failure
  | error
deriving DecidableEq

/-- The exceptions relevant to `handle_DATA`'s try/except:
`AppriseNotifyFailure` (raised by `submit` on a falsy notifier result) versus
every other exception class. -/
inductive PyExc
  | appriseNotifyFailure
  | other
deriving DecidableEq

/-- The temporary-file state of one `AttachMailrise` instance: how many
temporary files `download` has created, how many `invalidate` has removed, and
whether `_mrfile` currently holds one. -/
structure AttachState where
  created : Nat
  removed : Nat
  hasFile : Bool
deriving DecidableEq

def initialAttachState : AttachState := ⟨0, 0, false⟩

/-- Embeds `AttachMailrise.invalidate` (`mailrise/smtp.py` lines 313-322):
when a backing temporary file exists it is removed and the handle cleared;
otherwise a no-op. -/
def invalidateStep (s : AttachState) : AttachState :=
  if s.hasFile then
    { created := s.created, removed := s.removed + 1, hasFile := false }
  else s

/-- Embeds `AttachMailrise.download` (`mailrise/smtp.py` lines 302-311):
invalidates any previous file, then writes the attachment bytes to a fresh
`NamedTemporaryFile` kept on disk. -/
def downloadStep (s : AttachState) : AttachState :=
  let s1 := invalidateStep s
  { created := s1.created + 1, removed := s1.removed, hasFile := true }

/-- Models the notifier capability (`async_notify`) as seen by one
attachment: Apprise downloads the attachment — creating its temporary file —
and then either returns a boolean delivery result or raises an exception. -/
def asyncNotifyModel (outcome : NotifyOutcome) (s : AttachState) :
    Except PyExc Bool × AttachState :=
  (match outcome with
    | .success => .ok true
    | .failure => .ok false
    | .error => .error .other,
   downloadStep s)

/-- Embeds `EmailNotification.submit` (`mailrise/smtp.py` lines 189-222),
tracking the lifecycle of one attachment: the notifier is awaited; after a
normal return the `for base in attachbase: base.invalidate()` loop runs and a
falsy result then raises `AppriseNotifyFailure`; an exception from the
notifier propagates immediately, before the invalidate loop. -/
def submitModel (outcome : NotifyOutcome) : Except PyExc Unit × AttachState :=
  match asyncNotifyModel outcome initialAttachState with
  | (.error e, s1) => (.error e, s1)
  | (.ok res, s1) =>
    let s2 := invalidateStep s1
    if res then (.ok (), s2) else (.error .appriseNotifyFailure, s2)

/-- The protocol-level result of one submission. -/
def submitResult (o : NotifyOutcome) : Except PyExc Unit := (submitModel o).1

/-- Models `asyncio.gather(*aws)` with the default
`return_exceptions=False`: succeeds when every awaited submission succeeds,
otherwise propagates a single raised exception — the first to complete,
embedded here as the first in list order (exact whenever at most one
exception kind occurs among the submissions). -/
def gatherModel : List (Except PyExc Unit) → Except PyExc Unit
  | [] => .ok ()
  | .ok _ :: rest => gatherModel rest
  | .error e :: _ => .error e

/-- The observable outcome of `handle_DATA`: a 250 reply, a 450 reply, an
uncaught exception escaping the handler, or the `UnboundLocalError` raised
when the handler's own `notification` variable is read while unbound. -/
inductive DataVerdict
  | accepted
  | rejected
  | unhandledFault
  | unboundLocalCrash
deriving DecidableEq

/-- Embeds the dispatch section of `AppriseHandler.handle_DATA`
(`mailrise/smtp.py` lines 150-159): `await asyncio.gather(*aws)` inside
`try`, with `except AppriseNotifyFailure` returning `'450 ...'` and a normal
completion returning `'250 OK'`; any other exception is not caught. -/
def handleDataDispatch (outcomes : List NotifyOutcome) : DataVerdict :=
  match gatherModel (outcomes.map submitResult) with
  | .ok _ => .accepted
  | .error .appriseNotifyFailure => .rejected
  | .error .other => .unhandledFault

/-- The two ways `parsemessage` can raise: `UnreadableMultipart` from
`_getmultiparttext`, or the stdlib `KeyError` escaping from
`raw_data_manager.get_content`. -/
inductive ParseErr
  | unreadableMultipart
  | keyError
deriving DecidableEq

/-- Embeds `AppriseHandler.handle_DATA` (`mailrise/smtp.py` lines 133-159)
as a function of the message-parsing result and the per-recipient notifier
outcomes.  When `parsemessage` raises `UnreadableMultipart`, the `except`
clause logs and falls through to
`self.config.logger.info('Accepted email, subject: %s', notification.subject)`
where the local variable `notification` was never bound, so the handler
raises `UnboundLocalError`; a `KeyError` is not caught at all. -/
def handle_DATA_model (parsed : Except ParseErr Unit)
    (outcomes : List NotifyOutcome) : DataVerdict :=
  match parsed with
  | .error .unreadableMultipart => .unboundLocalCrash
  | .error .keyError => .unhandledFault
  | .ok _ => handleDataDispatch outcomes

/-- The first submission (in the embedded completion order) that does not
succeed. -/
def firstNonSuccess (outcomes : List NotifyOutcome) : Option NotifyOutcome :=
  outcomes.find? (fun o => decide (¬ o = NotifyOutcome.success))

theorem dispatch_nil : handleDataDispatch [] = DataVerdict.accepted := rfl

theorem dispatch_cons_success (rest : List NotifyOutcome) :
    handleDataDispatch (NotifyOutcome.success :: rest) =
      handleDataDispatch rest := rfl

theorem dispatch_cons_failure (rest : List NotifyOutcome) :
    handleDataDispatch (NotifyOutcome.failure :: rest) =
      DataVerdict.rejected := rfl

theorem dispatch_cons_error (rest : List NotifyOutcome) :
    handleDataDispatch (NotifyOutcome.error :: rest) =
      DataVerdict.unhandledFault := rfl

theorem dispatch_accepted_iff (outcomes : List NotifyOutcome) :
    handleDataDispatch outcomes = DataVerdict.accepted ↔
      ∀ o ∈ outcomes, o = NotifyOutcome.success := by
  induction outcomes with
  | nil => simp [dispatch_nil]
  | cons o rest ih =>
    cases o with
    | success => rw [dispatch_cons_success]; simp [ih]
    | failure => rw [dispatch_cons_failure]; simp
    | error => rw [dispatch_cons_error]; simp

theorem dispatch_rejected_iff (outcomes : List NotifyOutcome)
    (h : NotifyOutcome.error ∉ outcomes) :
    handleDataDispatch outcomes = DataVerdict.rejected ↔
      NotifyOutcome.failure ∈ outcomes := by
  induction outcomes with
  | nil => simp [dispatch_nil]
  | cons o rest ih =>
    cases o with
    | success =>
      rw [dispatch_cons_success]
      have := ih (fun hm => h (List.mem_cons_of_mem _ hm))
      simp [this]
    | failure => rw [dispatch_cons_failure]; simp
    | error => exact absurd (List.mem_cons_self _ _) h

theorem dispatch_first_error (outcomes : List NotifyOutcome)
    (h : firstNonSuccess outcomes = some NotifyOutcome.error) :
    handleDataDispatch outcomes = DataVerdict.unhandledFault := by
  induction outcomes with
  | nil => exact absurd h (by simp [firstNonSuccess])
  | cons o rest ih =>
    cases o with
    | success =>
      rw [dispatch_cons_success]
      exact ih h
    | failure =>
      exact absurd h (by simp [firstNonSuccess, List.find?])
    | error => exact dispatch_cons_error rest

/-- Claim C4 counterexample: a transaction whose single notifier submission
raises an exception (other than the failure signal) does NOT produce the 450
rejection the claim requires — the exception is not caught by
`except AppriseNotifyFailure` and escapes the coordinator as an unhandled
fault. -/
theorem handle_data_exception_counterexample :
    handle_DATA_model (.ok ()) [ NotifyOutcome.error ] =
      DataVerdict.unhandledFault ∧
    DataVerdict.unhandledFault ≠ DataVerdict.rejected := by decide

/-- Claim C4 amended: the transaction is accepted (250) iff every submission
succeeds; when no submission raises a foreign exception, it is rejected (450)
iff at least one submission reports delivery failure; but an exception raised
by the notifier is NOT converted into a failure of that one notification —
when the first non-successful submission raises, the exception escapes the
coordinator unhandled, and a transaction containing a raising submission is
in no case accepted. -/
theorem handle_data_outcome_amended (outcomes : List NotifyOutcome) :
    (handle_DATA_model (.ok ()) outcomes = DataVerdict.accepted ↔
      ∀ o ∈ outcomes, o = NotifyOutcome.success)
    ∧ (NotifyOutcome.error ∉ outcomes →
        (handle_DATA_model (.ok ()) outcomes = DataVerdict.rejected ↔
          NotifyOutcome.failure ∈ outcomes))
    ∧ (firstNonSuccess outcomes = some NotifyOutcome.error →
        handle_DATA_model (.ok ()) outcomes = DataVerdict.unhandledFault)
    ∧ (NotifyOutcome.error ∈ outcomes →
        handle_DATA_model (.ok ()) outcomes ≠ DataVerdict.accepted) :=
  ⟨dispatch_accepted_iff outcomes,
   fun h => dispatch_rejected_iff outcomes h,
   fun h => dispatch_first_error outcomes h,
   fun hm hacc => by
     have := (dispatch_accepted_iff outcomes).mp hacc _ hm
     exact absurd this (by decide)⟩

theorem handle_data_outcome_amended_witness :
    handle_DATA_model (.ok ())
        [ NotifyOutcome.success, NotifyOutcome.failure, NotifyOutcome.success ] =
      DataVerdict.rejected :=
  ((handle_data_outcome_amended
      [ NotifyOutcome.success, NotifyOutcome.failure, NotifyOutcome.success ]).2.1
    (by decide)).mpr (by decide)

/-- Claim C5 counterexample: when the notifier raises, the attachment's
temporary file has been created but `invalidate` never runs — the resource is
NOT released on that exit path, contradicting the claim's "released exactly
once ... on every exit path". -/
theorem submit_leak_counterexample :
    (submitModel NotifyOutcome.error).2.created = 1 ∧
    (submitModel NotifyOutcome.error).2.removed = 0 ∧
    (submitModel NotifyOutcome.error).2.hasFile = true := by decide

/-- Claim C5 amended: each per-attachment temporary file is created exactly
once and is released exactly once when the notifier returns — both when it
reports success and when it reports failure (the invalidate loop precedes the
`AppriseNotifyFailure` raise) — but it is NOT released when the notifier
raises an exception. -/
theorem submit_release_amended (o : NotifyOutcome) :
    (submitModel o).2.created = 1 ∧
    (submitModel o).2.removed = (if o = NotifyOutcome.error then 0 else 1) := by
  cases o <;> exact (by decide)

/- The message extractor: parsemessage and _getmultiparttext, over a model of
the stdlib EmailMessage tree. -/

/-- A MIME message part as `email.message.EmailMessage` exposes it to this
code: either a leaf part carrying decoded content, or a multipart container.
`isAttach` models `is_attachment()` (a `Content-Disposition: attachment`
header). -/
inductive MimePart
  | leaf (maintype subtype : Str) (content : Str) (isAttach : Bool)
  | multi (subtype : Str) (parts : List MimePart) (isAttach : Bool)

/-- `get_content_type()`. -/
def contentType : MimePart → Str
  | .leaf mt st _ _ => mt ++ '/' :: st
  | .multi st _ _ => "multipart".toList ++ '/' :: st

/-- `get_content_subtype()`. -/
def partSubtype : MimePart → Str
  | .leaf _ st _ _ => st
  | .multi st _ _ => st

/-- `EmailMessage.get_content` via `raw_data_manager`: returns the decoded
payload of a leaf part; on a multipart it raises `KeyError`. -/
def getContent : MimePart → Except ParseErr Str
  | .leaf _ _ c _ => .ok c
  | .multi _ _ _ => .error .keyError

mutual

/-- Models the stdlib candidate generator `MIMEPart._find_body` with the
default preference list `('related', 'html', 'plain')` of `get_body()`:
attachments are skipped; a text leaf yields its preference index when its
subtype is in the list; a non-text leaf yields nothing; a `multipart/related`
container yields itself at index 0 and then recurses into its first child
only (the `start` content-id parameter is not modelled); any other multipart
recurses into all children in order. -/
def findBodyCandidates : MimePart → List (Nat × MimePart)
  | .leaf mt st c a =>
    if a then []
    else if mt = "text".toList then
      if st = "related".toList then [ (0, .leaf mt st c a) ]
      else if st = "html".toList then [ (1, .leaf mt st c a) ]
      else if st = "plain".toList then [ (2, .leaf mt st c a) ]
      else []
    else []
  | .multi st parts a =>
    if a then []
    else if st = "related".toList then
      (0, .multi st parts a) ::
        (match parts with
          | [] => []
          | c :: _ => findBodyCandidates c)
    else findBodyCandidatesList parts

def findBodyCandidatesList : List MimePart → List (Nat × MimePart)
  | [] => []
  | p :: ps => findBodyCandidates p ++ findBodyCandidatesList ps

end

/-- The selection loop of `EmailMessage.get_body`: scan the candidates
keeping the first with a strictly smaller preference index, breaking early at
index 0. -/
def pickBody : List (Nat × MimePart) → Nat → Option MimePart → Option MimePart
  | [], _, best => best
  | (prio, p) :: rest, bestPrio, best =>
    if prio < bestPrio then
      if prio = 0 then some p else pickBody rest prio (some p)
    else pickBody rest bestPrio best

/-- Models `EmailMessage.get_body()` with its default preference list of
length 3. -/
def getBody (m : MimePart) : Option MimePart :=
  pickBody (findBodyCandidates m) 3 none

/-- The inner generator of `_getmultiparttext`: the first immediate child
with the given content type. -/
def findType (parts : List MimePart) (t : Str) : Option MimePart :=
  parts.find? (fun p => decide (contentType p = t))

/-- The priority scan of `_getmultiparttext` (`mailrise/smtp.py` lines
267-273): look for a child of each of these content types, in this order. -/
def firstPriorityChild (parts : List MimePart) : Option MimePart :=
  match findType parts ( "multipart/alternative".toList) with
  | some p => some p
  | none =>
    match findType parts ( "multipart/related".toList) with
    | some p => some p
    | none =>
      match findType parts ( "text/html".toList) with
      | some p => some p
      | none => findType parts ( "text/plain".toList)

theorem mem_of_findType {parts : List MimePart} {t : Str} {p : MimePart}
    (h : findType parts t = some p) : p ∈ parts :=
  List.mem_of_find?_eq_some h

theorem mem_of_firstPriorityChild {parts : List MimePart} {p : MimePart}
    (h : firstPriorityChild parts = some p) : p ∈ parts := by
  unfold firstPriorityChild at h
  cases h1 : findType parts ( "multipart/alternative".toList) with
  | some q => rw [h1] at h; exact mem_of_findType (h1.trans h)
  | none =>
    rw [h1] at h
    cases h2 : findType parts ( "multipart/related".toList) with
    | some q => rw [h2] at h; exact mem_of_findType (h2.trans h)
    | none =>
      rw [h2] at h
      cases h3 : findType parts ( "text/html".toList) with
      | some q => rw [h3] at h; exact mem_of_findType (h3.trans h)
      | none => rw [h3] at h; exact mem_of_findType h

/-- Embeds `_getmultiparttext` (`mailrise/smtp.py` lines 262-276): a
`multipart/related` or `multipart/alternative` container is resolved by
recursing into the first child found by the priority scan, raising
`UnreadableMultipart` when no child matches; any other part is returned
unchanged.  (A leaf part that nevertheless presents a related/alternative
content type has no sub-parts to iterate, so the scan finds nothing and the
code raises.) -/
def getmultiparttext : MimePart → Except ParseErr MimePart
  | .multi st parts a =>
    if st = "related".toList ∨ st = "alternative".toList then
      match h : firstPriorityChild parts with
      | some p => getmultiparttext p
      | none => .error .unreadableMultipart
    else .ok (.multi st parts a)
  | .leaf mt st c a =>
    if mt = "multipart".toList ∧
        (st = "related".toList ∨ st = "alternative".toList) then
      .error .unreadableMultipart
    else .ok (.leaf mt st c a)
termination_by m => sizeOf m
decreasing_by
  simp_wf
  have hlt := List.sizeOf_lt_of_mem (mem_of_firstPriorityChild h)
  omega

/-- Embeds the body-resolution portion of `parsemessage` (`mailrise/smtp.py`
lines 225-259): `msg.get_body()`; when there is none, the documented
placeholder `[no body]` with text format; otherwise probe `get_content()` —
a `KeyError` (multipart) routes the part through `_getmultiparttext` — and
read the resulting part's content, stripped of surrounding whitespace, with
format html exactly when the part's declared subtype is html. -/
def parsemessageBody (m : MimePart) : Except ParseErr (Str × NotifyFormat) :=
  match getBody m with
  | none => .ok ( "[no body]".toList, NotifyFormat.text)
  | some p =>
    let body_part : Except ParseErr MimePart :=
      match getContent p with
      | .ok _ => .ok p
      | .error _ => getmultiparttext p
    match body_part with
    | .error e => .error e
    | .ok bp =>
      match getContent bp with
      | .ok c =>
        .ok (pyStrip c,
          if partSubtype bp = "html".toList then NotifyFormat.html
          else NotifyFormat.text)
      | .error e => .error e

/-- The multipart/alternative message of the specification's example: a
text/plain part followed by a text/html part. -/
def altPlainHtmlMsg : MimePart :=
  MimePart.multi ( "alternative".toList)
    [ MimePart.leaf ( "text".toList) ( "plain".toList)
        ( "Hello, World!".toList) false,
      MimePart.leaf ( "text".toList) ( "html".toList)
        ( "<strong>Hello, World!</strong>".toList) false ]
    false

/-- A multipart/related message whose only child is an image: no part matches
any priority type. -/
def relatedImgMsg : MimePart :=
  MimePart.multi ( "related".toList)
    [ MimePart.leaf ( "image".toList) ( "jpeg".toList) [] false ]
    false

-- Validation of the body-resolution model against the repository's
-- parsemessage unit tests.
example :
    findBodyCandidates
        (MimePart.leaf ( "text".toList) ( "plain".toList)
          ( "Hello, World!".toList) false) =
      [ (2, MimePart.leaf ( "text".toList) ( "plain".toList)
          ( "Hello, World!".toList) false) ] := by rfl

example :
    getBody altPlainHtmlMsg =
      some (MimePart.leaf ( "text".toList) ( "html".toList)
        ( "<strong>Hello, World!</strong>".toList) false) := by rfl

example :
    parsemessageBody
        (MimePart.leaf ( "text".toList) ( "plain".toList)
          ( "Hello, World!".toList) false) =
      .ok ( "Hello, World!".toList, NotifyFormat.text) := by rfl

example :
    parsemessageBody altPlainHtmlMsg =
      .ok ( "<strong>Hello, World!</strong>".toList, NotifyFormat.html) := by rfl

/-- The unfolding equation of `getmultiparttext` on a multipart container,
with the priority-scan result exposed as a plain `match`. -/
theorem getmultiparttext_multi (st : Str) (parts : List MimePart) (a : Bool) :
    getmultiparttext (.multi st parts a) =
      if st = "related".toList ∨ st = "alternative".toList then
        match firstPriorityChild parts with
        | some p => getmultiparttext p
        | none => .error .unreadableMultipart
      else .ok (.multi st parts a) := by
  rw [getmultiparttext]
  by_cases hif : st = "related".toList ∨ st = "alternative".toList
  · rw [if_pos hif, if_pos hif]
    cases hfp : firstPriorityChild parts with
    | none => simp [hfp]
    | some p => simp [hfp]
  · rw [if_neg hif, if_neg hif]

/-- The unfolding equation of `getmultiparttext` on a leaf part. -/
theorem getmultiparttext_leaf (mt st c : Str) (a : Bool) :
    getmultiparttext (.leaf mt st c a) =
      if mt = "multipart".toList ∧
          (st = "related".toList ∨ st = "alternative".toList) then
        .error .unreadableMultipart
      else .ok (.leaf mt st c a) := by
  rw [getmultiparttext]

/-- When `get_body` returns a multipart container, `parsemessage` routes it
through `_getmultiparttext` (the `get_content` probe raises `KeyError` on a
multipart). -/
theorem parsemessageBody_multi_body {m : MimePart} {st : Str}
    {parts : List MimePart} {a : Bool}
    (hb : getBody m = some (MimePart.multi st parts a)) :
    parsemessageBody m =
      match getmultiparttext (MimePart.multi st parts a) with
      | .ok bp =>
        (match getContent bp with
          | .ok c =>
            .ok (pyStrip c,
              if partSubtype bp = "html".toList then NotifyFormat.html
              else NotifyFormat.text)
          | .error e => .error e)
      | .error e => .error e := by
  unfold parsemessageBody
  rw [hb]
  dsimp only [getContent]
  cases getmultiparttext (MimePart.multi st parts a) with
  | ok bp => rfl
  | error e => rfl

-- Validation: a multipart/related message with a text/plain part and an
-- image resolves through the priority scan to the text/plain content.
example :
    parsemessageBody
        (MimePart.multi ( "related".toList)
          [ MimePart.leaf ( "text".toList) ( "plain".toList)
              ( "Hello, World!".toList) false,
            MimePart.leaf ( "image".toList) ( "jpeg".toList) [] false ]
          false) =
      .ok ( "Hello, World!".toList, NotifyFormat.text) := by
  rw [parsemessageBody_multi_body
      (show getBody
          (MimePart.multi ( "related".toList)
            [ MimePart.leaf ( "text".toList) ( "plain".toList)
                ( "Hello, World!".toList) false,
              MimePart.leaf ( "image".toList) ( "jpeg".toList) [] false ]
            false) =
        some (MimePart.multi ( "related".toList)
          [ MimePart.leaf ( "text".toList) ( "plain".toList)
              ( "Hello, World!".toList) false,
            MimePart.leaf ( "image".toList) ( "jpeg".toList) [] false ]
          false) from rfl),
    getmultiparttext_multi, if_pos (Or.inl rfl),
    show firstPriorityChild
        [ MimePart.leaf ( "text".toList) ( "plain".toList)
            ( "Hello, World!".toList) false,
          MimePart.leaf ( "image".toList) ( "jpeg".toList) [] false ] =
      some (MimePart.leaf ( "text".toList) ( "plain".toList)
        ( "Hello, World!".toList) false) from rfl]
  dsimp only
  rw [getmultiparttext_leaf, if_neg (by simp)]
  rfl

/-- Claim C6: MIME body resolution is deterministic with the fixed priority:
(1) when `get_body` selects a non-multipart part, its stripped content is
used with format html exactly when the declared subtype is html; (2) a
`multipart/alternative` or `multipart/related` container is resolved by the
priority scan over its immediate children — `multipart/alternative`,
`multipart/related`, `text/html`, `text/plain`, in that order (the order
fixed by `firstPriorityChild`) — recursing into the first child found; (3) in
particular, a `multipart/alternative` message containing `text/plain` then
`text/html` resolves to the `text/html` content with format html. -/
theorem mime_priority_resolution_claim :
    (∀ (m : MimePart) (mt st c : Str) (a : Bool),
      getBody m = some (MimePart.leaf mt st c a) →
      parsemessageBody m =
        .ok (pyStrip c,
          if st = "html".toList then NotifyFormat.html else NotifyFormat.text))
    ∧ (∀ (st : Str) (parts : List MimePart) (a : Bool),
        st = "related".toList ∨ st = "alternative".toList →
        getmultiparttext (MimePart.multi st parts a) =
          match firstPriorityChild parts with
          | some p => getmultiparttext p
          | none => .error .unreadableMultipart)
    ∧ parsemessageBody altPlainHtmlMsg =
        .ok ( "<strong>Hello, World!</strong>".toList, NotifyFormat.html) := by
  refine ⟨?_, ?_, by rfl⟩
  · intro m mt st c a hb
    unfold parsemessageBody
    rw [hb]
    rfl
  · intro st parts a hif
    rw [getmultiparttext_multi, if_pos hif]

theorem mime_priority_resolution_claim_witness :
    parsemessageBody
        (MimePart.leaf ( "text".toList) ( "html".toList)
          ( "<b>hello</b>".toList) false) =
      .ok (pyStrip ( "<b>hello</b>".toList),
        if ( "html".toList : Str) = "html".toList then NotifyFormat.html
        else NotifyFormat.text) :=
  mime_priority_resolution_claim.1 _ _ _ _ _ rfl

/-- Claim C7 (code bug): when no MIME part matches any priority type, body
resolution does fail with `UnreadableMultipart`, but the failure is NOT
recovered with a placeholder body: `handle_DATA` catches the exception, logs
it, and then reads the local variable `notification` that was never assigned,
so the handler crashes with `UnboundLocalError` instead of proceeding to
dispatch and accept the transaction. -/
theorem handle_data_unreadable_crash :
    parsemessageBody relatedImgMsg = .error ParseErr.unreadableMultipart ∧
    handle_DATA_model ((parsemessageBody relatedImgMsg).map (fun _ => ())) [] =
      DataVerdict.unboundLocalCrash ∧
    DataVerdict.unboundLocalCrash ≠ DataVerdict.accepted := by
  have h1 : parsemessageBody relatedImgMsg = .error ParseErr.unreadableMultipart := by
    rw [parsemessageBody_multi_body
        (show getBody relatedImgMsg =
          some (MimePart.multi ( "related".toList)
            [ MimePart.leaf ( "image".toList) ( "jpeg".toList) [] false ]
            false) from rfl),
      getmultiparttext_multi, if_pos (Or.inl rfl),
      show firstPriorityChild
          [ MimePart.leaf ( "image".toList) ( "jpeg".toList) [] false ] =
        none from rfl]
  exact ⟨h1, by rw [h1]; rfl, by decide⟩

/- The router: SimpleRouter.email_to_apprise. -/

/-- Embeds `EmailAttachment` from `mailrise/router.py` (bytes are modelled as
lists of numbers). -/
structure EmailAttachment where
  data : List Nat
  filename : Str
deriving DecidableEq

/-- Embeds the email record consumed by `SimpleRouter.email_to_apprise`: the
`EmailMessage` shape the repository's router tests construct, including the
recipient list `to` (spelled `to_` here, as `to` is reserved in Lean) that
the router iterates. -/
structure RouterEmail where
  subject : Str
  from_ : Str
  to_ : List Str
  body : Str
  body_format : NotifyFormat
  attachments : List EmailAttachment
deriving DecidableEq

/-- The template-variable mapping built per recipient by `email_to_apprise`
(`mailrise/simple_router.py` lines 137-144). -/
structure TemplateMapping where
  subject : Str
  from_ : Str
  body : Str
  to_ : Str
  config : Str
  ntype : NotifyType
deriving DecidableEq

/-- Embeds `AppriseNotification` from `mailrise/router.py`, with the fields
`email_to_apprise` fills in (`config_format` is always the yaml literal). -/
structure AppriseNotification where
  config : Str
  config_format : Str
  title : Str
  body : Str
  body_format : NotifyFormat
  notify_type : NotifyType
  attachments : List EmailAttachment
deriving DecidableEq

/-- The two diagnostics `email_to_apprise` logs when it skips a recipient
(`logger.error` calls at lines 122 and 126 of `mailrise/simple_router.py`). -/
inductive LogEvent
  | invalidAddress (addr : Str)
  | unconfiguredRecipient (addr : Str)
deriving DecidableEq

/-- The substitution mapping of `email_to_apprise`. -/
def mkMapping (email : RouterEmail) (ebody : Str) (rcpt : Recipient) :
    TemplateMapping :=
  { subject := email.subject
    from_ := email.from_
    body := ebody
    to_ := rcpt.key.str
    config := rcpt.key.as_configured
    ntype := rcpt.notify_type }

/-- The `body_pattern` step of `email_to_apprise` (`mailrise/simple_router.py`
lines 129-135): when the sender configures a pattern, the body is replaced by
the matched text of `re.search` — modelled by the `reSearch` function
parameter, since the regular-expression engine is standard-library code — and
a failed search raises `ValueError`. -/
def resolveBody (reSearch : Str → Str → Option Str) (emailBody : Str)
    (sender : SimpleSender) : Except Unit Str :=
  match sender.body_pattern with
  | none => .ok emailBody
  | some pat =>
    match reSearch pat emailBody with
    | none => .error ()
    | some b => .ok b

/-- The recipient loop of `SimpleRouter.email_to_apprise`
(`mailrise/simple_router.py` lines 116-154), collected eagerly: the async
generator's yields become the returned notification list, its `logger.error`
skip diagnostics become the returned log list, and a raised `ValueError`
collapses the run to an error.  `safe_substitute` of the stdlib
`string.Template` is taken as the function parameter `subst`. -/
def e2aGo (subst : Str → TemplateMapping → Str)
    (reSearch : Str → Str → Option Str)
    (senders : List (Key × SimpleSender)) (email : RouterEmail) :
    List Str → Except Unit (List LogEvent × List AppriseNotification)
  | [] => .ok ([], [])
  | addr :: rest =>
    match parsercpt addr with
    | none =>
      match e2aGo subst reSearch senders email rest with
      | .ok (ls, ns) => .ok (LogEvent.invalidAddress addr :: ls, ns)
      | .error e => .error e
    | some rcpt =>
      match get_sender senders rcpt.key with
      | none =>
        match e2aGo subst reSearch senders email rest with
        | .ok (ls, ns) => .ok (LogEvent.unconfiguredRecipient addr :: ls, ns)
        | .error e => .error e
      | some sender =>
        match resolveBody reSearch email.body sender with
        | .error e => .error e
        | .ok ebody =>
          match e2aGo subst reSearch senders email rest with
          | .error e => .error e
          | .ok (ls, ns) =>
            .ok (ls,
              { config := sender.config_yaml
                config_format := "yaml".toList
                title := subst sender.title_template (mkMapping email ebody rcpt)
                body := subst sender.body_template (mkMapping email ebody rcpt)
                body_format := sender.body_format.getD email.body_format
                notify_type := rcpt.notify_type
                attachments := email.attachments } :: ns)

/-- Embeds `SimpleRouter.email_to_apprise`: the loop applied to the email's
recipient list. -/
def email_to_apprise (subst : Str → TemplateMapping → Str)
    (reSearch : Str → Str → Option Str)
    (senders : List (Key × SimpleSender)) (email : RouterEmail) :
    Except Unit (List LogEvent × List AppriseNotification) :=
  e2aGo subst reSearch senders email email.to_

/-- Classifies a recipient the router skips: address decoding fails, or the
decoded key matches no configured sender.  Returns the diagnostic logged for
it. -/
def skipEvent (senders : List (Key × SimpleSender)) (addr : Str) :
    Option LogEvent :=
  match parsercpt addr with
  | none => some (.invalidAddress addr)
  | some rcpt =>
    match get_sender senders rcpt.key with
    | none => some (.unconfiguredRecipient addr)
    | some _ => none

theorem e2aGo_skip (subst : Str → TemplateMapping → Str)
    (reSearch : Str → Str → Option Str)
    (senders : List (Key × SimpleSender)) (email : RouterEmail)
    (bad : Str) (rest : List Str) (ev : LogEvent)
    (hbad : skipEvent senders bad = some ev) :
    e2aGo subst reSearch senders email (bad :: rest) =
      match e2aGo subst reSearch senders email rest with
      | .ok (ls, ns) => .ok (ev :: ls, ns)
      | .error e => .error e := by
  unfold skipEvent at hbad
  cases hp : parsercpt bad with
  | none =>
    simp only [hp] at hbad
    obtain rfl := Option.some.inj hbad
    simp only [e2aGo, hp]
  | some rcpt =>
    simp only [hp] at hbad
    cases hs : get_sender senders rcpt.key with
    | none =>
      simp only [hs] at hbad
      obtain rfl := Option.some.inj hbad
      simp only [e2aGo, hp, hs]
    | some sender =>
      simp only [hs] at hbad
      exact Option.noConfusion hbad

theorem e2aGo_append (subst : Str → TemplateMapping → Str)
    (reSearch : Str → Str → Option Str)
    (senders : List (Key × SimpleSender)) (email : RouterEmail)
    (xs ys : List Str) :
    e2aGo subst reSearch senders email (xs ++ ys) =
      match e2aGo subst reSearch senders email xs with
      | .error e => .error e
      | .ok p =>
        match e2aGo subst reSearch senders email ys with
        | .error e => .error e
        | .ok q => .ok (p.1 ++ q.1, p.2 ++ q.2) := by
  induction xs with
  | nil =>
    simp only [List.nil_append, e2aGo]
    cases e2aGo subst reSearch senders email ys with
    | error e => rfl
    | ok q => simp
  | cons a xs ih =>
    simp only [List.cons_append]
    cases hp : parsercpt a with
    | none =>
      simp only [e2aGo, hp, ih]
      cases e2aGo subst reSearch senders email xs with
      | error e => rfl
      | ok p =>
        cases e2aGo subst reSearch senders email ys with
        | error e => rfl
        | ok q => simp
    | some rcpt =>
      cases hs : get_sender senders rcpt.key with
      | none =>
        simp only [e2aGo, hp, hs, ih]
        cases e2aGo subst reSearch senders email xs with
        | error e => rfl
        | ok p =>
          cases e2aGo subst reSearch senders email ys with
          | error e => rfl
          | ok q => simp
      | some sender =>
        cases hb : resolveBody reSearch email.body sender with
        | error e => simp only [e2aGo, hp, hs, hb]
        | ok ebody =>
          simp only [e2aGo, hp, hs, hb, ih]
          cases e2aGo subst reSearch senders email xs with
          | error e => rfl
          | ok p =>
            cases e2aGo subst reSearch senders email ys with
            | error e => rfl
            | ok q => simp

/-- Claim C9: a recipient anywhere in the transaction's list whose address
fails to decode or whose routing key matches no configured sender is skipped
with a logged diagnostic: the produced notifications (and the success or
failure of the whole run) are exactly those of the same transaction without
that recipient, and when the run completes the diagnostic for the skipped
recipient is in the log.  `email_to_apprise` is the loop applied to the
email's recipient list. -/
theorem router_skips_bad_recipients_claim
    (subst : Str → TemplateMapping → Str) (reSearch : Str → Str → Option Str)
    (senders : List (Key × SimpleSender)) (email : RouterEmail)
    (pre post : List Str) (bad : Str) (ev : LogEvent)
    (hbad : skipEvent senders bad = some ev) :
    (Except.map Prod.snd
        (e2aGo subst reSearch senders email (pre ++ bad :: post)) =
      Except.map Prod.snd
        (e2aGo subst reSearch senders email (pre ++ post)))
    ∧ (∀ ls ns,
        e2aGo subst reSearch senders email (pre ++ bad :: post) = .ok (ls, ns) →
        ev ∈ ls)
    ∧ email_to_apprise subst reSearch senders email =
        e2aGo subst reSearch senders email email.to_ := by
  have hskip := e2aGo_skip subst reSearch senders email bad post ev hbad
  refine ⟨?_, ?_, rfl⟩
  · rw [e2aGo_append, e2aGo_append, hskip]
    cases e2aGo subst reSearch senders email pre with
    | error e => rfl
    | ok p =>
      obtain ⟨l1, n1⟩ := p
      cases e2aGo subst reSearch senders email post with
      | error e => rfl
      | ok q =>
        obtain ⟨l2, n2⟩ := q
        rfl
  · intro ls ns h
    rw [e2aGo_append, hskip] at h
    cases hP : e2aGo subst reSearch senders email pre with
    | error e => rw [hP] at h; exact absurd h (by simp)
    | ok p =>
      obtain ⟨l1, n1⟩ := p
      rw [hP] at h
      cases hQ : e2aGo subst reSearch senders email post with
      | error e => rw [hQ] at h; exact absurd h (by simp)
      | ok q =>
        obtain ⟨l2, n2⟩ := q
        rw [hQ] at h
        dsimp only at h
        have h' := Except.ok.inj h
        injection h' with h1 h2
        subst h1
        simp

theorem router_skips_bad_recipients_claim_witness :
    Except.map Prod.snd
        (e2aGo (fun t _ => t) (fun _ _ => none)
          [ (⟨ "t".toList, "test".toList⟩,
              ⟨ "cfg".toList, [], [], none, none⟩) ]
          ⟨ "subj".toList, "from".toList, [], "body".toList,
            NotifyFormat.text, []⟩
          ([] ++ "bad".toList :: [ "t@test".toList ])) =
      Except.map Prod.snd
        (e2aGo (fun t _ => t) (fun _ _ => none)
          [ (⟨ "t".toList, "test".toList⟩,
              ⟨ "cfg".toList, [], [], none, none⟩) ]
          ⟨ "subj".toList, "from".toList, [], "body".toList,
            NotifyFormat.text, []⟩
          ([] ++ [ "t@test".toList ])) :=
  (router_skips_bad_recipients_claim (fun t _ => t) (fun _ _ => none)
    [ (⟨ "t".toList, "test".toList⟩, ⟨ "cfg".toList, [], [], none, none⟩) ]
    ⟨ "subj".toList, "from".toList, [], "body".toList, NotifyFormat.text, []⟩
    [] [ "t@test".toList ] ( "bad".toList)
    (LogEvent.invalidAddress ( "bad".toList)) (by decide)).1

end Mailrise
